import Mathlib

/-!
Verification of `src/quadriga/metadata/extract_from_lernziele.py`.

Strings are modelled as `List Char` (`Chars`); Python text functions are
embedded as executable Lean functions over `Chars`.  Python dictionaries
(which preserve insertion order) are modelled as association lists.
-/

namespace Lernziele

/-- Python strings are modelled as lists of characters. -/
abbrev Chars := List Char

/-- Characters matched by Python's `\s` (and stripped by `str.strip()`),
restricted to the ASCII range that the repository's files use. -/
def isPyWS (c : Char) : Bool :=
  c = ' ' || c = '\t' || c = '\n' || c = '\r' || c = '\x0b' || c = '\x0c'

/-- One pass of `re.sub(r"\s+", " ", text)`: every maximal run of whitespace
becomes a single space.  The flag records whether the previous character
belonged to a whitespace run already replaced. -/
def collapseWS : Bool → Chars → Chars
  | _, [] => []
  | prev, c :: rest =>
    if isPyWS c then
      if prev then collapseWS true rest
      else ' ' :: collapseWS true rest
    else c :: collapseWS false rest

/-- Python `str.strip()`: drop whitespace from both ends. -/
def stripWS (l : Chars) : Chars :=
  ((l.dropWhile isPyWS).reverse.dropWhile isPyWS).reverse

/-- `normalize_whitespace` (source lines 20-22):
`re.sub(r"\s+", " ", text).strip()`. -/
def normalize_whitespace (l : Chars) : Chars :=
  stripWS (collapseWS false l)


/-! ## A small regex engine with Python `re` semantics

The source works through seven `re` patterns.  They are embedded as data
(`RE` below) and executed by a backtracking matcher that follows Python's
semantics: ordered alternation, greedy (`starG`) and lazy (`starL`)
quantifiers, zero-width lookaheads, and `$` (`eos`) matching at the end of
the string or just before a final newline (no `re.MULTILINE` is ever
combined with `$` in the source). -/

/-- Regex abstract syntax, covering the constructs used by the source. -/
inductive RE where
  | eps                              -- empty pattern
  | lit (cs : Chars)                 -- literal character sequence
  | cls (p : Char → Bool)            -- single-character class
  | seq (a b : RE)                   -- concatenation
  | alt (a b : RE)                   -- ordered alternation
  | starG (a : RE)                   -- greedy Kleene star
  | starL (a : RE)                   -- lazy Kleene star
  | group (n : Nat) (a : RE)         -- capturing group
  | look (a : RE)                    -- positive lookahead
  | nlook (a : RE)                   -- negative lookahead
  | eos                              -- dollar anchor (no MULTILINE)

/-- Captured group spans: group index, start, end (latest capture first). -/
abbrev Caps := List (Nat × Nat × Nat)

/-- Backtracking matcher in continuation-passing style.  `fuel` bounds the
recursion depth (every pattern in the source loops only on bodies that
consume at least one character, so enough fuel makes the bound inert). -/
def reM : Nat → RE → Chars → Nat → Caps → (Nat → Caps → Option (Nat × Caps)) →
    Option (Nat × Caps)
  | 0, _, _, _, _, _ => none
  | fuel + 1, r, s, i, caps, k =>
    match r with
    | .eps => k i caps
    | .lit cs => if cs.isPrefixOf (s.drop i) then k (i + cs.length) caps else none
    | .cls p =>
      match (s.drop i).head? with
      | some c => if p c then k (i + 1) caps else none
      | none => none
    | .seq a b => reM fuel a s i caps (fun j caps' => reM fuel b s j caps' k)
    | .alt a b =>
      match reM fuel a s i caps k with
      | some res => some res
      | none => reM fuel b s i caps k
    | .starG a =>
      match reM fuel a s i caps
          (fun j caps' => if j = i then none else reM fuel (.starG a) s j caps' k) with
      | some res => some res
      | none => k i caps
    | .starL a =>
      match k i caps with
      | some res => some res
      | none =>
        reM fuel a s i caps
          (fun j caps' => if j = i then none else reM fuel (.starL a) s j caps' k)
    | .group n a => reM fuel a s i caps (fun j caps' => k j ((n, i, j) :: caps'))
    | .look a =>
      match reM fuel a s i caps (fun j caps' => some (j, caps')) with
      | some (_, caps') => k i caps'
      | none => none
    | .nlook a =>
      match reM fuel a s i caps (fun j caps' => some (j, caps')) with
      | some _ => none
      | none => k i caps
    | .eos =>
      if i = s.length ∨ (i + 1 = s.length ∧ (s.drop i).head? = some '\n') then
        k i caps
      else none

/-- Depth budget for the matcher, ample for the source's patterns. -/
def reFuel (s : Chars) : Nat := 40 * (s.length + 5)

/-- One regex match: matched span plus captured group spans. -/
structure RMatch where
  mstart : Nat
  mend : Nat
  caps : Caps
deriving Repr, DecidableEq

/-- Try to match `r` at position `i` of `s` (Python `re.match` when `i = 0`;
a prefix match, not anchored at the end). -/
def reMatchAt (r : RE) (s : Chars) (i : Nat) : Option RMatch :=
  match reM (reFuel s) r s i [] (fun j caps => some (j, caps)) with
  | some (j, caps) => some ⟨i, j, caps⟩
  | none => none

/-- Auxiliary scan for `reSearchFrom`, structural in a step budget. -/
def reSearchAux (r : RE) (s : Chars) : Nat → Nat → Option RMatch
  | 0, _ => none
  | steps + 1, i =>
    match reMatchAt r s i with
    | some m => some m
    | none => if i < s.length then reSearchAux r s steps (i + 1) else none

/-- Leftmost match at or after position `i` (Python `re.search`). -/
def reSearchFrom (r : RE) (s : Chars) (i : Nat) : Option RMatch :=
  reSearchAux r s (s.length + 1 - i) i

/-- All non-overlapping matches, scanning left to right (Python
`re.finditer`); an empty match advances the scan position by one. -/
def reFindAllAux (r : RE) (s : Chars) : Nat → Nat → List RMatch
  | 0, _ => []
  | steps + 1, i =>
    match reSearchFrom r s i with
    | none => []
    | some m =>
      m :: reFindAllAux r s steps (if m.mend > m.mstart then m.mend else m.mstart + 1)

def reFindAll (r : RE) (s : Chars) : List RMatch :=
  reFindAllAux r s (s.length + 1) 0

/-- Python `re.sub(pattern, '', s)`: delete every non-overlapping match
(all substitutions in the source replace with a fixed string; only the
deleting ones are needed). -/
def reSubAux (r : RE) (s : Chars) : Nat → Nat → Chars
  | 0, _ => []
  | steps + 1, i =>
    if i < s.length ∨ i = s.length then
      match reMatchAt r s i with
      | some m =>
        if m.mend > i then reSubAux r s steps m.mend
        else
          match (s.drop i).head? with
          | some c => c :: reSubAux r s steps (i + 1)
          | none => []
      | none =>
        match (s.drop i).head? with
        | some c => c :: reSubAux r s steps (i + 1)
        | none => []
    else []

def reSubDel (r : RE) (s : Chars) : Chars :=
  reSubAux r s (s.length + 1) 0

/-- The text of the span `[a, b)` of `s`. -/
def substr (s : Chars) (a b : Nat) : Chars := (s.drop a).take (b - a)

/-- Captured text of group `n` (Python `match.group(n)`): `none` when the
group did not take part in the match. -/
def RMatch.groupStr (m : RMatch) (s : Chars) (n : Nat) : Option Chars :=
  match m.caps.find? (fun c => c.1 = n) with
  | some (_, a, b) => some (substr s a b)
  | none => none

/-! ## The source's regex patterns as `RE` data -/

/-- Concatenation of a pattern list. -/
def RE.cat (rs : List RE) : RE := rs.foldr RE.seq RE.eps

/-- Literal from a string. -/
def RE.str (t : String) : RE := RE.lit t.data

/-- Greedy `?`. -/
def RE.optG (a : RE) : RE := RE.alt a RE.eps

/-- Greedy `+`. -/
def RE.plusG (a : RE) : RE := RE.seq a (RE.starG a)

/-- Lazy `+`. -/
def RE.plusL (a : RE) : RE := RE.seq a (RE.starL a)

/-- Python `\s*`. -/
def wsStar : RE := RE.starG (RE.cls isPyWS)

/-- Python `\s+`. -/
def wsPlus : RE := RE.plusG (RE.cls isPyWS)

/-- Python `.` under `re.DOTALL`. -/
def anyD : RE := RE.cls (fun _ => true)

/-- Python `.` without `re.DOTALL` (anything but a newline). -/
def anyN : RE := RE.cls (fun c => c ≠ '\n')

/-- Python `\d` (restricted to ASCII digits, which is all the files use). -/
def digitC : RE := RE.cls Char.isDigit

/-- Source line 129 (compiled with `re.DOTALL | re.MULTILINE`):
``` ```\{admonition\}\s+(.+?)\n((?::[^\n]+\n)*)((?:(?!```).)+)``` ``` -/
def admonition_pattern : RE :=
  RE.cat [RE.str "```\x7badmonition\x7d", wsPlus, RE.group 1 (RE.plusL anyD),
    RE.str "\n",
    RE.group 2 (RE.starG (RE.cat [RE.str ":",
      RE.plusG (RE.cls (fun c => c ≠ '\n')), RE.str "\n"])),
    RE.group 3 (RE.plusG (RE.seq (RE.nlook (RE.str "```")) anyD)),
    RE.str "```"]

/-- Source line 138 (no flags): `\[(.+?)\]\((.+?)\)(\s*\(\*(.+?)\*\))?` -/
def title_pattern : RE :=
  RE.cat [RE.str "[", RE.group 1 (RE.plusL anyN), RE.str "]",
    RE.str "(", RE.group 2 (RE.plusL anyN), RE.str ")",
    RE.optG (RE.group 3 (RE.cat [wsStar, RE.str "(*",
      RE.group 4 (RE.plusL anyN), RE.str "*)"]))]

/-- Source lines 151-155 (`re.DOTALL`): `<!--\s*learning-goal:\s*(.+?)\s*-->` -/
def learning_goal_pattern : RE :=
  RE.cat [RE.str "<!--", wsStar, RE.str "learning-goal:", wsStar,
    RE.group 1 (RE.plusL anyD), wsStar, RE.str "-->"]

/-- Source line 161 (no flags): `<!--\s*START:\s*(.+?)\s*-->` -/
def start_marker_pattern : RE :=
  RE.cat [RE.str "<!--", wsStar, RE.str "START:", wsStar,
    RE.group 1 (RE.plusL anyN), wsStar, RE.str "-->"]

/-- Source line 166 (no flags): `<!--\s*START:\s*.+?\s*-->\s*` -/
def start_sub_pattern : RE :=
  RE.cat [RE.str "<!--", wsStar, RE.str "START:", wsStar,
    RE.plusL anyN, wsStar, RE.str "-->", wsStar]

/-- Source line 167 (no flags): `\s*<!--\s*END:\s*.+?\s*-->` -/
def end_sub_pattern : RE :=
  RE.cat [wsStar, RE.str "<!--", wsStar, RE.str "END:", wsStar,
    RE.plusL anyN, wsStar, RE.str "-->"]

/-- Source line 171 (`re.DOTALL`):
`\d+\.\s+(.+?)(?:\n\s*<!--\s*(.+?)\s*-->)?(?=\n\d+\.|\n\n|$)` -/
def objective_pattern : RE :=
  RE.cat [RE.plusG digitC, RE.str ".", wsPlus, RE.group 1 (RE.plusL anyD),
    RE.optG (RE.cat [RE.str "\n", wsStar, RE.str "<!--", wsStar,
      RE.group 2 (RE.plusL anyD), wsStar, RE.str "-->"]),
    RE.look (RE.alt (RE.cat [RE.str "\n", RE.plusG digitC, RE.str "."])
      (RE.alt (RE.str "\n\n") RE.eos))]

/-- Source line 40 (no flags): `<!--\s*|\s*-->` -/
def comment_marker_pattern : RE :=
  RE.alt (RE.seq (RE.str "<!--") wsStar) (RE.seq wsStar (RE.str "-->"))

/-! ## Python dictionaries as insertion-ordered association lists -/

/-- A Python `dict[str, str]` keeps insertion order; assignment overwrites
in place, new keys are appended. -/
abbrev Dict := List (Chars × Chars)

/-- Python `d.get(k)` / `d[k]`. -/
def dget (d : Dict) (k : Chars) : Option Chars :=
  match d.find? (fun p => p.1 = k) with
  | some p => some p.2
  | none => none

/-- Python `d[k] = v`. -/
def dset (d : Dict) (k v : Chars) : Dict :=
  if (d.find? (fun p => p.1 = k)).isSome then
    d.map (fun p => if p.1 = k then (k, v) else p)
  else d ++ [(k, v)]

/-- Python `d.update(e)`. -/
def dupdate (d e : Dict) : Dict := e.foldl (fun d' p => dset d' p.1 p.2) d

/-- Python falsiness of `d.get(k)`: missing key or empty string. -/
def pyFalsy : Option Chars → Bool
  | none => true
  | some v => v.isEmpty

/-! ## `parse_metadata_comment`, `derive_data_flow`,
`validate_objective_metadata` (source lines 15-110) -/

/-- Source lines 15-17. -/
def DEFAULT_COMPETENCY : Chars := "nicht anwendbar".data
def DEFAULT_BLOOMS : Chars := "nicht anwendbar".data
def DEFAULT_DATA_FLOW : Chars := "nicht anwendbar".data

/-- Python `str.lower()` then `.replace(' ', '-')` as used on keys
(source line 47). -/
def keyNormalize (l : Chars) : Chars :=
  (l.map Char.toLower).map (fun c => if c = ' ' then '-' else c)

/-- Source lines 42-55: the body of the loop of `parse_metadata_comment`
for one pipe-separated part.  `part.split(':', 1)` is the split at the
first colon; only the keys `blooms` (stored as `blooms-category`) and
`competency` are kept, and empty values are skipped. -/
def parsePart (metadata : Dict) (part0 : Chars) : Dict :=
  let part := stripWS part0
  if part.contains ':' then
    let key := keyNormalize (stripWS (part.takeWhile (fun c => c ≠ ':')))
    let value := stripWS ((part.dropWhile (fun c => c ≠ ':')).drop 1)
    if value.isEmpty then metadata
    else if key = "blooms".data then dset metadata "blooms-category".data value
    else if key = "competency".data then dset metadata key value
    else metadata
  else metadata

/-- Source lines 25-57: `parse_metadata_comment`.  Comment markers are
deleted and the rest is split on `|` and folded through `parsePart`. -/
def parse_metadata_comment (comment : Chars) : Dict :=
  ((reSubDel comment_marker_pattern comment).splitOn '|').foldl parsePart []

/-- Source lines 88-110: `derive_data_flow`. -/
def derive_data_flow (competency : Chars) : Chars :=
  let n := normalize_whitespace competency
  if n = "Orientierungswissen".data then "übergreifend".data
  else if "1.".data.isPrefixOf n then "1 Planung".data
  else if "2.".data.isPrefixOf n then "2 Erhebung und Aufbereitung".data
  else if "3.".data.isPrefixOf n then "3 Management".data
  else if "4.".data.isPrefixOf n then "4 Analyse".data
  else if "5.".data.isPrefixOf n then "5 Publikation und Nachnutzung".data
  else DEFAULT_DATA_FLOW

/-- The dictionary keys used for objective metadata. -/
def loKey : Chars := "learning-objective".data
def compKey : Chars := "competency".data
def bloomsKey : Chars := "blooms-category".data
def dfKey : Chars := "data-flow".data

/-- Source lines 72-74: the first `if` of `validate_objective_metadata`
(state is the objective dictionary with the missing-field list so far). -/
def validateCompetency (p : Dict × List Chars) : Dict × List Chars :=
  if pyFalsy (dget p.1 compKey) then
    (dset p.1 compKey DEFAULT_COMPETENCY, p.2 ++ [compKey])
  else p

/-- Source lines 76-78: the second `if` of `validate_objective_metadata`. -/
def validateBlooms (p : Dict × List Chars) : Dict × List Chars :=
  if pyFalsy (dget p.1 bloomsKey) then
    (dset p.1 bloomsKey DEFAULT_BLOOMS, p.2 ++ [bloomsKey])
  else p

/-- Source lines 80-83: the third `if` of `validate_objective_metadata`;
it fills `data-flow` by derivation and does NOT extend the missing list. -/
def validateDataFlow (p : Dict × List Chars) : Dict × List Chars :=
  if pyFalsy (dget p.1 dfKey) then
    (dset p.1 dfKey (derive_data_flow ((dget p.1 compKey).getD DEFAULT_COMPETENCY)), p.2)
  else p

/-- Source lines 60-85: `validate_objective_metadata`.  Returns the mutated
objective dictionary together with the list of missing-field names. -/
def validate_objective_metadata (objective_data : Dict) : Dict × List Chars :=
  validateDataFlow (validateBlooms (validateCompetency (objective_data, [])))

/-! ## `extract_admonition_blocks` (source lines 113-221) -/

/-- One entry of the `validation_issues` list (source lines 183-187). -/
structure ValidationIssue where
  issue_section : Chars
  issue_objective : Chars
  missing_fields : List Chars
deriving Repr, DecidableEq

/-- One entry of the `blocks` list (source lines 192-205).  An `Option`
field models a key that may be absent from the Python dictionary. -/
structure BlockData where
  section_title : Chars
  section_reference : Chars
  objectives : List Dict
  learning_goal : Option Chars := none
  section_note : Option Chars := none
  chapter : Option Chars := none
deriving Repr, DecidableEq

/-- Source lines 166-167: strip all START/END markers from a block body. -/
def bodyCleaned (body : Chars) : Chars :=
  reSubDel end_sub_pattern (reSubDel start_sub_pattern body)

/-- Source lines 173-189: the body of the objectives loop for one match of
`objective_pattern`. -/
def objectiveStep (section_title body_cleaned : Chars)
    (acc : List Dict × List ValidationIssue) (m : RMatch) :
    List Dict × List ValidationIssue :=
  let objective_text := normalize_whitespace ((m.groupStr body_cleaned 1).getD [])
  let metadata_comment := m.groupStr body_cleaned 2
  let objective_data : Dict := [(loKey, objective_text)]
  let objective_data :=
    match metadata_comment with
    | some c => if c.isEmpty then objective_data
                else dupdate objective_data (parse_metadata_comment c)
    | none => objective_data
  let v := validate_objective_metadata objective_data
  let issues :=
    if v.2.isEmpty then acc.2
    else acc.2 ++ [⟨section_title, objective_text.take 60, v.2⟩]
  (acc.1 ++ [v.1], issues)

/-- Source lines 170-189: the loop over numbered objectives of one block,
returning the objectives built and the validation issues recorded. -/
def parseObjectivesLoop (section_title : Chars) (body_cleaned : Chars) :
    List Dict × List ValidationIssue :=
  (reFindAll objective_pattern body_cleaned).foldl
    (objectiveStep section_title body_cleaned) ([], [])

/-- Source lines 134-219: processing of one admonition match, given the
stripped title line and body.  Returns the block (if one is emitted) and
the validation issues contributed by its objectives. -/
def processBlock (title_line body : Chars) : Option BlockData × List ValidationIssue :=
  match reMatchAt title_pattern title_line 0 with
  | none => (none, [])
  | some title_match =>
    let section_title := (title_match.groupStr title_line 1).getD []
    let section_ref := (title_match.groupStr title_line 2).getD []
    let section_note :=
      match title_match.groupStr title_line 4 with
      | some v => if v.isEmpty then none else some v
      | none => none
    let learning_goal :=
      (reSearchFrom learning_goal_pattern body 0).map
        (fun m => normalize_whitespace ((m.groupStr body 1).getD []))
    let chapter :=
      (reSearchFrom start_marker_pattern body 0).map
        (fun m => stripWS ((m.groupStr body 1).getD []))
    let body_cleaned := bodyCleaned body
    let parsed := parseObjectivesLoop section_title body_cleaned
    if parsed.1.isEmpty then (none, parsed.2)
    else
      (some { section_title := section_title
              section_reference := section_ref
              objectives := parsed.1
              learning_goal :=
                match learning_goal with
                | some v => if v.isEmpty then none else some v
                | none => none
              section_note := section_note
              chapter :=
                match chapter with
                | some v => if v.isEmpty then none else some v
                | none => none },
       parsed.2)

/-- Source line 134: `title_line = match.group(1).strip()`. -/
def admTitleLine (content : Chars) (m : RMatch) : Chars :=
  stripWS ((m.groupStr content 1).getD [])

/-- Source line 135: `body = match.group(3).strip()`. -/
def admBody (content : Chars) (m : RMatch) : Chars :=
  stripWS ((m.groupStr content 3).getD [])

/-- The per-match step of `extract_admonition_blocks`: process one
admonition match, appending the emitted block (if any) and its issues. -/
def admStep (content : Chars) (acc : List BlockData × List ValidationIssue)
    (m : RMatch) : List BlockData × List ValidationIssue :=
  let r := processBlock (admTitleLine content m) (admBody content m)
  match r.1 with
  | some b => (acc.1 ++ [b], acc.2 ++ r.2)
  | none => (acc.1, acc.2 ++ r.2)

/-- Source lines 113-221: `extract_admonition_blocks`. -/
def extract_admonition_blocks (content : Chars) :
    List BlockData × List ValidationIssue :=
  (reFindAll admonition_pattern content).foldl (admStep content) ([], [])

/-- Source lines 224-262: `extract_from_lernziele_file`.  Reading the file
is I/O; its outcome is passed in as an `Except` (the error value stands
for the caught `FileNotFoundError` / `Exception`).  The `except` arms
log and return empty results. -/
def extract_from_lernziele_file (readResult : Except Chars Chars) :
    List BlockData × List ValidationIssue :=
  match readResult with
  | .ok content => extract_admonition_blocks content
  | .error _ => ([], [])

/-! ## `generate_validation_report` (source lines 265-297) -/

/-- Decimal rendering of a number, as Python string interpolation does. -/
def natChars (n : Nat) : Chars := (Nat.repr n).data

/-- Python `', '.join(fields)`. -/
def joinComma (fields : List Chars) : Chars :=
  List.intercalate ", ".data fields

/-- Source line 280. -/
def successReport : Chars :=
  "✅ All learning objectives have complete metadata!\n".data

/-- Source line 282: the warning header for `n` issues. -/
def warnHeader (n : Nat) : Chars :=
  "⚠️ Found ".data ++ natChars n ++ " learning objectives with missing metadata:\n\n".data

/-- Source lines 285-287: the three lines added for issue number `i`. -/
def issueEntry (i : Nat) (issue : ValidationIssue) : Chars :=
  natChars i ++ ". Section: ".data ++ issue.issue_section ++ "\n".data
    ++ "   Objective: ".data ++ issue.issue_objective ++ "...\n".data
    ++ "   Missing: ".data ++ joinComma issue.missing_fields ++ "\n\n".data

/-- Source lines 289-290. -/
def fixHint : Chars :=
  "\nTo fix: Add HTML comments after each objective:\n".data
    ++ "<!-- competency: X | blooms: Y -->\n".data

/-- Source lines 284-287: `for i, issue in enumerate(validation_issues, 1):
report += ...`, as a fold that carries the counter and the accumulated
report text. -/
def issueLines : List ValidationIssue → Nat → Chars → Chars
  | [], _, report => report
  | issue :: rest, i, report => issueLines rest (i + 1) (report ++ issueEntry i issue)

/-- Source lines 265-297: `generate_validation_report` (the optional write
to `output_path` is I/O and not part of the returned text). -/
def generate_validation_report (validation_issues : List ValidationIssue) : Chars :=
  if validation_issues.isEmpty then successReport
  else issueLines validation_issues 1 (warnHeader validation_issues.length) ++ fixHint

/-! ## The merge step (source lines 300-396)

Only the pure core (lines 359-385) is modelled: file discovery, YAML
load/save and logging are I/O collaborators.  A chapter entry of
`metadata.yml` is modelled by its title and the two fields the merge
writes. -/

/-- One mapping of the `chapters` list of `metadata.yml`; `title` models
`chapter.get("title", "")`. -/
structure ChapterMeta where
  title : Chars
  learning_goal : Option Chars := none
  learning_objectives : Option (List Dict) := none
deriving Repr, DecidableEq

/-- Lookup in an insertion-ordered association list with list values. -/
def alookup {β : Type} (m : List (Chars × β)) (k : Chars) : Option β :=
  match m.find? (fun p => p.1 = k) with
  | some p => some p.2
  | none => none

/-- Python `d.setdefault(k, []).extend(objs)`. -/
def setdefaultExtend (m : List (Chars × List Dict)) (k : Chars) (objs : List Dict) :
    List (Chars × List Dict) :=
  if (m.find? (fun p => p.1 = k)).isSome then
    m.map (fun p => if p.1 = k then (p.1, p.2 ++ objs) else p)
  else m ++ [(k, objs)]

/-- Source lines 362-366: one section's contribution to the chapter →
objectives mapping (`if not chapter: continue` covers an absent key and an
empty name). -/
def chapterObjStep (m : List (Chars × List Dict)) (s : BlockData) :
    List (Chars × List Dict) :=
  match s.chapter with
  | none => m
  | some c => if c.isEmpty then m else setdefaultExtend m c s.objectives

/-- Source lines 359-366: build the chapter → objectives mapping. -/
def buildChapterObjectives (sections : List BlockData) : List (Chars × List Dict) :=
  sections.foldl chapterObjStep []

/-- Source lines 361-375: build the chapter → learning-goal mapping
(first goal wins on conflict). -/
def buildChapterLearningGoals (sections : List BlockData) : List (Chars × Chars) :=
  sections.foldl
    (fun m s =>
      match s.chapter with
      | none => m
      | some c =>
        if c.isEmpty then m
        else
          match s.learning_goal with
          | none => m
          | some lg =>
            if lg.isEmpty then m
            else
              match alookup m c with
              | some old => if old ≠ lg then m else
                  (m.map (fun p => if p.1 = c then (p.1, lg) else p))
              | none => m ++ [(c, lg)])
    []

/-- Source lines 377-385: fold the extracted objectives into the chapter
entries of the metadata store. -/
def mergeChapters (chapters : List ChapterMeta) (sections : List BlockData) :
    List ChapterMeta :=
  let chapter_objectives := buildChapterObjectives sections
  let chapter_learning_goals := buildChapterLearningGoals sections
  chapters.map (fun ch =>
    match alookup chapter_objectives ch.title with
    | none => ch
    | some objs =>
      { ch with
        learning_goal := some ((alookup chapter_learning_goals ch.title).getD "TODO".data)
        learning_objectives := some objs })

/-! ## Definitions used by the claim statements and witnesses -/

/-- The adjacency constraint satisfied by collapsed text: no two consecutive
whitespace characters. -/
def NoWW (a b : Char) : Prop := ¬(isPyWS a = true ∧ isPyWS b = true)

/-- The invariant kept by `parse_metadata_comment`: only the two keys
`competency` and `blooms-category` occur, always with nonempty values. -/
def GoodKV (kv : Chars × Chars) : Prop :=
  (kv.1 = compKey ∨ kv.1 = bloomsKey) ∧ kv.2 ≠ []

/-- A metadata field that is present with a nonempty value. -/
def GoodField (d : Dict) (k : Chars) : Prop :=
  ∃ v, dget d k = some v ∧ v ≠ []

/-- The invariant of objective records after validation: the
learning-objective key is present (possibly with an empty value) and the
three metadata fields are present with nonempty values. -/
def GoodObjective (od : Dict) : Prop :=
  (dget od loKey).isSome = true ∧ GoodField od compKey
    ∧ GoodField od bloomsKey ∧ GoodField od dfKey

/-- Specification-side restatement of claim C2: the objective records
extracted for chapter `t`, in extraction order. -/
def extractedObjectivesFor (t : Chars) (sections : List BlockData) : List Dict :=
  ((sections.filter (fun s => decide (s.chapter = some t))).map
    (fun s => s.objectives)).flatten

/-- A concrete objective dictionary as built for an item with no inline
metadata comment (source line 177). -/
def noMetadataObjective : Dict := [(loKey, "Beispielziel".data)]

/-- A concrete inline comment carrying a `data-flow` key. -/
def dataFlowComment : Chars := "<!-- competency: A | data-flow: X -->".data

/-- The concrete document on which the original claim C10 fails: the body
`1. ` has a numbered item whose captured text is just a newline, so the
emitted objective's learning-objective value is the empty string. -/
def emptyObjectiveDoc : Chars :=
  "```\x7badmonition\x7d [T](r)\n1. \n<!-- START: A -->\n```".data

/-- A concrete document with one chapterless admonition block. -/
def w5content : Chars := "```\x7badmonition\x7d [T](r)\n1. Lernziel Eins\n```".data

/-- The admonition match of `w5content`. -/
def w5m : RMatch := ⟨0, 43, [(3, 23, 40), (2, 23, 23), (1, 16, 22)]⟩

/-- The title match of the block of `w5content`. -/
def w5tm : RMatch := ⟨0, 6, [(2, 4, 5), (1, 1, 2)]⟩

/-- A one-chapter metadata store for the C2 witness. -/
def w2chapters : List ChapterMeta := [⟨"Intro".data, none, none⟩]

/-- A one-section extraction result for the C2 witness. -/
def w2sections : List BlockData :=
  [⟨"S".data, "r".data, [[(loKey, "Z".data)]], none, none, some "Intro".data⟩]

section C8Lemmas


lemma collapse_true_head (l : Chars) (c : Char) :
    (collapseWS true l).head? = some c → isPyWS c = false := by
  induction l with
  | nil => simp [collapseWS]
  | cons d rest ih =>
    intro h
    by_cases hd : isPyWS d
    · exact ih (by simpa [collapseWS, hd] using h)
    · simp [collapseWS, hd] at h
      subst h
      simpa using hd

lemma collapse_mem_ws (prev : Bool) (l : Chars) :
    ∀ c ∈ collapseWS prev l, isPyWS c = true → c = ' ' := by
  induction l generalizing prev with
  | nil => simp [collapseWS]
  | cons d rest ih =>
    intro c hc hws
    by_cases hd : isPyWS d
    · cases prev with
      | true => exact ih true c (by simpa [collapseWS, hd] using hc) hws
      | false =>
        simp [collapseWS, hd] at hc
        rcases hc with hc | hc
        · exact hc
        · exact ih true c hc hws
    · simp [collapseWS, hd] at hc
      rcases hc with hc | hc
      · subst hc; simp [hd] at hws
      · exact ih false c hc hws

lemma collapse_chain (prev : Bool) (l : Chars) :
    List.Chain' NoWW (collapseWS prev l) := by
  induction l generalizing prev with
  | nil => simp [collapseWS]
  | cons d rest ih =>
    by_cases hd : isPyWS d
    · cases prev with
      | true => simpa [collapseWS, hd] using ih true
      | false =>
        simp only [collapseWS, hd, if_pos, if_neg, Bool.false_eq_true,
          not_false_eq_true]
        rw [List.chain'_cons']
        refine ⟨?_, ih true⟩
        intro b hb
        have := collapse_true_head rest b hb
        simp [NoWW, this]
    · simp only [collapseWS, hd, if_neg, Bool.false_eq_true, not_false_eq_true]
      rw [List.chain'_cons']
      refine ⟨?_, ih false⟩
      intro b _
      simp [NoWW, hd]

lemma collapse_eq_self (l : Chars)
    (hmem : ∀ c ∈ l, isPyWS c = true → c = ' ')
    (hch : List.Chain' NoWW l) :
    collapseWS false l = l := by
  induction l with
  | nil => rfl
  | cons d rest ih =>
    rw [List.chain'_cons'] at hch
    by_cases hd : isPyWS d
    · have hd' : d = ' ' := hmem d (by simp) hd
      have hrest : collapseWS true rest = rest := by
        cases rest with
        | nil => rfl
        | cons e rest' =>
          have he : isPyWS e = false := by
            have := hch.1 e (by simp)
            simp [NoWW, hd] at this
            simpa using this
          have := ih (fun c hc h => hmem c (by simp [hc]) h) hch.2
          simpa [collapseWS, he] using this
      subst hd'
      simp [collapseWS, hd, hrest]
    · have := ih (fun c hc h => hmem c (by simp [hc]) h) hch.2
      simp [collapseWS, hd, this]

lemma dropWhile_dropWhile (p : Char → Bool) (l : Chars) :
    (l.dropWhile p).dropWhile p = l.dropWhile p := by
  induction l with
  | nil => rfl
  | cons d rest ih =>
    by_cases hd : p d
    · simpa [List.dropWhile, hd] using ih
    · simp [List.dropWhile, hd]

lemma dropWhile_head_false (p : Char → Bool) (y : Chars) (h : y.dropWhile p = y)
    (c : Char) (rest : Chars) (hy : y = c :: rest) : p c = false := by
  subst hy
  have := List.dropWhile_eq_self_iff.mp h
  simpa using this (by simp)

lemma rstrip_of_lstripped (p : Char → Bool) (y : Chars) (h : y.dropWhile p = y) :
    (y.reverse.dropWhile p).reverse.dropWhile p = (y.reverse.dropWhile p).reverse := by
  rcases List.eq_nil_or_concat (y.reverse.dropWhile p) with hs | ⟨t, a, hs⟩
  · simp [hs]
  · rw [List.concat_eq_append] at hs
    rw [hs]
    rcases List.dropWhile_suffix (l := y.reverse) p with ⟨u, hu⟩
    rw [hs] at hu
    cases y with
    | nil => simp at hu
    | cons c rest =>
      have hc : p c = false := dropWhile_head_false p _ h c rest rfl
      have ha : a = c := by
        have h1 : (u ++ (t ++ [a])).getLast? = some a := by
          rw [← List.append_assoc]; exact List.getLast?_concat _
        rw [hu] at h1
        have h2 : (c :: rest).reverse.getLast? = some c := by
          simp [List.reverse_cons]
        rw [h1] at h2
        exact Option.some_inj.mp h2
      subst ha
      simp [List.reverse_append, List.dropWhile_cons, hc]

lemma stripWS_idem (l : Chars) : stripWS (stripWS l) = stripWS l := by
  unfold stripWS
  have h1 : (l.dropWhile isPyWS).dropWhile isPyWS = l.dropWhile isPyWS :=
    dropWhile_dropWhile isPyWS l
  rw [rstrip_of_lstripped isPyWS (l.dropWhile isPyWS) h1]
  rw [List.reverse_reverse, dropWhile_dropWhile]

lemma stripWS_sublist (l : Chars) : List.Sublist (stripWS l) l := by
  have s1 : List.Sublist ((l.dropWhile isPyWS).reverse.dropWhile isPyWS)
      (l.dropWhile isPyWS).reverse := List.dropWhile_sublist _
  have s2 := List.reverse_sublist.mpr s1
  rw [List.reverse_reverse] at s2
  exact s2.trans (List.dropWhile_sublist _)

lemma stripWS_subset (l : Chars) : ∀ c ∈ stripWS l, c ∈ l := by
  intro c hc
  exact (stripWS_sublist l).subset hc

lemma noww_flip (a b : Char) : NoWW a b → NoWW b a := by
  intro h hab
  exact h ⟨hab.2, hab.1⟩

lemma stripWS_chain (l : Chars) (h : List.Chain' NoWW l) :
    List.Chain' NoWW (stripWS l) := by
  have h1 : List.Chain' NoWW (l.dropWhile isPyWS) :=
    h.suffix (List.dropWhile_suffix _)
  have h2 : List.Chain' NoWW (l.dropWhile isPyWS).reverse := by
    rw [List.chain'_reverse]
    exact h1.imp (fun a b hab => noww_flip a b hab)
  have h3 : List.Chain' NoWW ((l.dropWhile isPyWS).reverse.dropWhile isPyWS) :=
    h2.suffix (List.dropWhile_suffix _)
  rw [stripWS, List.chain'_reverse]
  exact h3.imp (fun a b hab => noww_flip a b hab)

/-- Claim C8: whitespace normalization is idempotent — for every string `s`,
`normalize_whitespace (normalize_whitespace s) = normalize_whitespace s`. -/
theorem C8_normalize_whitespace_idempotent (s : Chars) :
    normalize_whitespace (normalize_whitespace s) = normalize_whitespace s := by
  have hmem : ∀ c ∈ normalize_whitespace s, isPyWS c = true → c = ' ' := by
    intro c hc
    exact collapse_mem_ws false s c (stripWS_subset _ c hc)
  have hch : List.Chain' NoWW (normalize_whitespace s) :=
    stripWS_chain _ (collapse_chain false s)
  show stripWS (collapseWS false (normalize_whitespace s)) = normalize_whitespace s
  rw [collapse_eq_self _ hmem hch]
  show stripWS (stripWS (collapseWS false s)) = normalize_whitespace s
  rw [stripWS_idem]
  rfl

end C8Lemmas


/-! ## Dictionary lemmas -/

lemma dget_cons (q : Chars × Chars) (d : Dict) (k : Chars) :
    dget (q :: d) k = if q.1 = k then some q.2 else dget d k := by
  by_cases hq : q.1 = k <;> simp [dget, List.find?_cons, hq]

lemma dget_nil (k : Chars) : dget [] k = none := rfl

lemma dget_isSome_eq (d : Dict) (k : Chars) :
    (dget d k).isSome = (d.find? (fun p => p.1 = k)).isSome := by
  unfold dget
  cases d.find? (fun p => p.1 = k) <;> rfl

lemma dget_map_set_self (d : Dict) (k v : Chars)
    (h : (dget d k).isSome = true) :
    dget (d.map (fun p => if p.1 = k then (k, v) else p)) k = some v := by
  induction d with
  | nil => simp [dget_nil] at h
  | cons q rest ih =>
    by_cases hq : q.1 = k
    · simp [hq, dget_cons]
    · rw [dget_cons, if_neg hq] at h
      simp only [List.map_cons, if_neg hq]
      rw [dget_cons, if_neg hq]
      exact ih h

lemma dget_append_single_self (d : Dict) (k v : Chars)
    (h : (dget d k).isSome = false) :
    dget (d ++ [(k, v)]) k = some v := by
  induction d with
  | nil => simp [dget_cons]
  | cons q rest ih =>
    rw [dget_cons] at h
    by_cases hq : q.1 = k
    · rw [if_pos hq] at h
      simp at h
    · rw [if_neg hq] at h
      rw [List.cons_append, dget_cons, if_neg hq]
      exact ih h

lemma dget_dset_self (d : Dict) (k v : Chars) : dget (dset d k v) k = some v := by
  unfold dset
  by_cases h : (d.find? (fun p => p.1 = k)).isSome
  · rw [if_pos h]
    exact dget_map_set_self d k v (by rw [dget_isSome_eq]; exact h)
  · rw [if_neg h]
    refine dget_append_single_self d k v ?_
    rw [dget_isSome_eq]
    exact Bool.eq_false_iff.mpr h

lemma dget_map_set_ne (d : Dict) (k v k' : Chars) (h : k' ≠ k) :
    dget (d.map (fun p => if p.1 = k then (k, v) else p)) k' = dget d k' := by
  induction d with
  | nil => simp
  | cons q rest ih =>
    by_cases hq : q.1 = k
    · simp only [List.map_cons, if_pos hq]
      rw [dget_cons, dget_cons, ih]
      have h1 : ¬((k, v).1 = k') := fun he => h (by simpa using he.symm)
      have h2 : ¬(q.1 = k') := fun he => h (by rw [← he, hq])
      rw [if_neg h1, if_neg h2]
    · simp only [List.map_cons, if_neg hq]
      rw [dget_cons, dget_cons, ih]

lemma dget_append_single_ne (d : Dict) (k v k' : Chars) (h : k' ≠ k) :
    dget (d ++ [(k, v)]) k' = dget d k' := by
  induction d with
  | nil =>
    rw [List.nil_append, dget_cons, dget_nil]
    exact if_neg (fun he => h (by simpa using he.symm))
  | cons q rest ih =>
    rw [List.cons_append, dget_cons, dget_cons, ih]

lemma dget_dset_ne (d : Dict) (k v k' : Chars) (h : k' ≠ k) :
    dget (dset d k v) k' = dget d k' := by
  unfold dset
  by_cases hf : (d.find? (fun p => p.1 = k)).isSome
  · rw [if_pos hf]
    exact dget_map_set_ne d k v k' h
  · rw [if_neg hf]
    exact dget_append_single_ne d k v k' h

/-- Setting any key preserves the presence of every key. -/
lemma dget_dset_isSome (d : Dict) (k v k' : Chars)
    (h : (dget d k').isSome = true) : (dget (dset d k v) k').isSome = true := by
  by_cases hk : k' = k
  · subst hk
    rw [dget_dset_self]
    rfl
  · rw [dget_dset_ne d k v k' hk]
    exact h

/-- Updating with any dictionary preserves the presence of every key. -/
lemma dget_dupdate_isSome (e d : Dict) (k' : Chars)
    (h : (dget d k').isSome = true) : (dget (dupdate d e) k').isSome = true := by
  induction e generalizing d with
  | nil => exact h
  | cons p rest ih =>
    exact ih (dset d p.1 p.2) (dget_dset_isSome d p.1 p.2 k' h)

/-! ## Claim C1: validation of an objective without inline metadata -/


/-- Claim C1 as stated is false: for an objective with no inline metadata
comment the missing-field list returned by `validate_objective_metadata`
is exactly `[competency, blooms-category]` — the field name `data-flow`
does not appear in it, although the claim says all three names do. -/
theorem C1_counterexample :
    (validate_objective_metadata noMetadataObjective).2 = [compKey, bloomsKey]
    ∧ ¬ dfKey ∈ (validate_objective_metadata noMetadataObjective).2 := by
  decide

/-- Claim C1 (amended): for every objective dictionary carrying none of the
three metadata keys, validation sets all three fields to the default
"nicht anwendbar", but the returned missing-field list contains only
`competency` and `blooms-category` (not `data-flow`). -/
theorem C1_validate_defaults (od : Dict)
    (hc : dget od compKey = none)
    (hb : dget od bloomsKey = none)
    (hd : dget od dfKey = none) :
    dget (validate_objective_metadata od).1 compKey = some DEFAULT_COMPETENCY
    ∧ dget (validate_objective_metadata od).1 bloomsKey = some DEFAULT_BLOOMS
    ∧ dget (validate_objective_metadata od).1 dfKey = some DEFAULT_DATA_FLOW
    ∧ (validate_objective_metadata od).2 = [compKey, bloomsKey] := by
  have h1 : ¬ bloomsKey = compKey := by decide
  have h2 : ¬ dfKey = compKey := by decide
  have h3 : ¬ dfKey = bloomsKey := by decide
  have h4 : ¬ compKey = bloomsKey := by decide
  have h5 : ¬ compKey = dfKey := by decide
  have h6 : ¬ bloomsKey = dfKey := by decide
  have hder : derive_data_flow DEFAULT_COMPETENCY = DEFAULT_DATA_FLOW := by decide
  simp [validate_objective_metadata, validateCompetency, validateBlooms,
        validateDataFlow, hc, hb, hd, pyFalsy,
        dget_dset_ne, dget_dset_self, h1, h2, h3, h4, h5, h6, hder]

/-- Witness for `C1_validate_defaults` at a concrete objective. -/
theorem C1_validate_defaults_witness :
    dget (validate_objective_metadata noMetadataObjective).1 compKey
        = some DEFAULT_COMPETENCY
    ∧ dget (validate_objective_metadata noMetadataObjective).1 bloomsKey
        = some DEFAULT_BLOOMS
    ∧ dget (validate_objective_metadata noMetadataObjective).1 dfKey
        = some DEFAULT_DATA_FLOW
    ∧ (validate_objective_metadata noMetadataObjective).2 = [compKey, bloomsKey] :=
  C1_validate_defaults noMetadataObjective (by decide) (by decide) (by decide)

/-! ## Claim C3: `derive_data_flow` classification -/

lemma isPrefixOf_head (a : Char) (la n : Chars)
    (h : (a :: la).isPrefixOf n = true) : n.head? = some a := by
  cases n with
  | nil => simp [List.isPrefixOf] at h
  | cons c t =>
    simp [List.isPrefixOf] at h
    simp [h.1]

lemma prefix_excl (a b : Char) (la lb n : Chars) (hab : a ≠ b)
    (h : (a :: la).isPrefixOf n = true) : (b :: lb).isPrefixOf n = false := by
  cases hb : (b :: lb).isPrefixOf n with
  | false => rfl
  | true =>
    have h1 := isPrefixOf_head a la n h
    have h2 := isPrefixOf_head b lb n hb
    rw [h1] at h2
    exact absurd (Option.some_inj.mp h2) hab

lemma prefix_ne_ow (a : Char) (la n : Chars) (ha : a ≠ 'O')
    (h : (a :: la).isPrefixOf n = true) : n ≠ "Orientierungswissen".data := by
  intro he
  have h1 := isPrefixOf_head a la n h
  rw [he] at h1
  have h2 : ("Orientierungswissen".data).head? = some 'O' := by decide
  rw [h2] at h1
  exact ha (Option.some_inj.mp h1).symm

/-- Claim C3: `derive_data_flow` returns the cross-cutting label exactly
when the whitespace-normalized competency is "Orientierungswissen";
returns the fixed flow-stage label `d ...` when the normalized competency
starts with the digit `d` (1-5) followed by a literal "."; and returns the
default "nicht anwendbar" for every other input, the empty string
included. -/
theorem C3_derive_data_flow (s : Chars) :
    (normalize_whitespace s = "Orientierungswissen".data →
      derive_data_flow s = "übergreifend".data)
    ∧ ("1.".data.isPrefixOf (normalize_whitespace s) = true →
      derive_data_flow s = "1 Planung".data)
    ∧ ("2.".data.isPrefixOf (normalize_whitespace s) = true →
      derive_data_flow s = "2 Erhebung und Aufbereitung".data)
    ∧ ("3.".data.isPrefixOf (normalize_whitespace s) = true →
      derive_data_flow s = "3 Management".data)
    ∧ ("4.".data.isPrefixOf (normalize_whitespace s) = true →
      derive_data_flow s = "4 Analyse".data)
    ∧ ("5.".data.isPrefixOf (normalize_whitespace s) = true →
      derive_data_flow s = "5 Publikation und Nachnutzung".data)
    ∧ (normalize_whitespace s ≠ "Orientierungswissen".data →
      "1.".data.isPrefixOf (normalize_whitespace s) = false →
      "2.".data.isPrefixOf (normalize_whitespace s) = false →
      "3.".data.isPrefixOf (normalize_whitespace s) = false →
      "4.".data.isPrefixOf (normalize_whitespace s) = false →
      "5.".data.isPrefixOf (normalize_whitespace s) = false →
      derive_data_flow s = DEFAULT_DATA_FLOW)
    ∧ derive_data_flow [] = DEFAULT_DATA_FLOW := by
  refine ⟨?_, ?_, ?_, ?_, ?_, ?_, ?_, by decide⟩
  · intro h
    simp [derive_data_flow, h]
  · intro h
    have hne := prefix_ne_ow '1' ['.'] _ (by decide) h
    simp [derive_data_flow, hne, h]
  · intro h
    have hne := prefix_ne_ow '2' ['.'] _ (by decide) h
    have e1 := prefix_excl '2' '1' ['.'] ['.'] _ (by decide) h
    simp [derive_data_flow, hne, h, e1]
  · intro h
    have hne := prefix_ne_ow '3' ['.'] _ (by decide) h
    have e1 := prefix_excl '3' '1' ['.'] ['.'] _ (by decide) h
    have e2 := prefix_excl '3' '2' ['.'] ['.'] _ (by decide) h
    simp [derive_data_flow, hne, h, e1, e2]
  · intro h
    have hne := prefix_ne_ow '4' ['.'] _ (by decide) h
    have e1 := prefix_excl '4' '1' ['.'] ['.'] _ (by decide) h
    have e2 := prefix_excl '4' '2' ['.'] ['.'] _ (by decide) h
    have e3 := prefix_excl '4' '3' ['.'] ['.'] _ (by decide) h
    simp [derive_data_flow, hne, h, e1, e2, e3]
  · intro h
    have hne := prefix_ne_ow '5' ['.'] _ (by decide) h
    have e1 := prefix_excl '5' '1' ['.'] ['.'] _ (by decide) h
    have e2 := prefix_excl '5' '2' ['.'] ['.'] _ (by decide) h
    have e3 := prefix_excl '5' '3' ['.'] ['.'] _ (by decide) h
    have e4 := prefix_excl '5' '4' ['.'] ['.'] _ (by decide) h
    simp [derive_data_flow, hne, h, e1, e2, e3, e4]
  · intro h0 h1 h2 h3 h4 h5
    simp [derive_data_flow, h0, h1, h2, h3, h4, h5, DEFAULT_DATA_FLOW]

/-- Witness for `C3_derive_data_flow`: the branch for competencies starting
with "2." at a concrete input. -/
theorem C3_derive_data_flow_witness :
    derive_data_flow "2.Something".data = "2 Erhebung und Aufbereitung".data :=
  (C3_derive_data_flow "2.Something".data).2.2.1 (by decide)

/-! ## Claim C4: keys recognized by `parse_metadata_comment` -/


lemma dset_forall (P : Chars × Chars → Prop) (d : Dict) (k v : Chars)
    (hd : ∀ kv ∈ d, P kv) (hkv : P (k, v)) : ∀ kv ∈ dset d k v, P kv := by
  unfold dset
  by_cases hf : (d.find? (fun p => p.1 = k)).isSome
  · rw [if_pos hf]
    intro kv hkv'
    rcases List.mem_map.mp hkv' with ⟨p, hp, he⟩
    by_cases hpk : p.1 = k
    · rw [if_pos hpk] at he
      exact he ▸ hkv
    · rw [if_neg hpk] at he
      exact he ▸ hd p hp
  · rw [if_neg hf]
    intro kv hkv'
    rcases List.mem_append.mp hkv' with h | h
    · exact hd kv h
    · simp at h
      exact h ▸ hkv

lemma parsePart_inv (d : Dict) (part0 : Chars)
    (h : ∀ kv ∈ d, GoodKV kv) : ∀ kv ∈ parsePart d part0, GoodKV kv := by
  unfold parsePart
  by_cases hc : (stripWS part0).contains ':'
  · rw [if_pos hc]
    set value := stripWS (((stripWS part0).dropWhile (fun c => c ≠ ':')).drop 1) with hv
    by_cases hve : value.isEmpty
    · simpa [hve] using h
    · have hvne : value ≠ [] := fun he => hve (by simp [he])
      rw [if_neg hve]
      by_cases hb : keyNormalize (stripWS ((stripWS part0).takeWhile (fun c => c ≠ ':')))
          = "blooms".data
      · rw [if_pos hb]
        exact dset_forall GoodKV d _ value h ⟨Or.inr rfl, hvne⟩
      · rw [if_neg hb]
        by_cases hk : keyNormalize (stripWS ((stripWS part0).takeWhile (fun c => c ≠ ':')))
            = "competency".data
        · rw [if_pos hk, hk]
          exact dset_forall GoodKV d _ value h ⟨Or.inl rfl, hvne⟩
        · rw [if_neg hk]
          exact h
  · rw [if_neg hc]
    exact h

lemma foldl_parsePart_inv (parts : List Chars) (init : Dict)
    (h : ∀ kv ∈ init, GoodKV kv) : ∀ kv ∈ parts.foldl parsePart init, GoodKV kv := by
  induction parts generalizing init with
  | nil => exact h
  | cons p rest ih => exact ih (parsePart init p) (parsePart_inv init p h)


/-- Claim C4 as stated is false: a `data-flow: X` entry in an inline
metadata comment is NOT recognized — `parse_metadata_comment` drops it
like any other unrecognized key, so the result holds only the
`competency` pair and no `data-flow` key. -/
theorem C4_counterexample :
    parse_metadata_comment dataFlowComment = [(compKey, ['A'])]
    ∧ dget (parse_metadata_comment dataFlowComment) dfKey = none := by
  decide

/-- Claim C4 (amended): the keys recognized by `parse_metadata_comment`
are exactly `competency` and `blooms` (stored under `blooms-category`);
every other key — `data-flow` included — is ignored, and entries with
empty values are ignored, so every returned pair has one of the two
recognized field names and a nonempty value. -/
theorem C4_parse_metadata_keys (comment : Chars) :
    ∀ kv ∈ parse_metadata_comment comment,
      (kv.1 = compKey ∨ kv.1 = bloomsKey) ∧ kv.2 ≠ [] := by
  intro kv hkv
  exact foldl_parsePart_inv _ [] (by simp) kv hkv

/-- Witness for `C4_parse_metadata_keys` at a concrete comment and pair. -/
theorem C4_parse_metadata_keys_witness :
    ((compKey, "2.Something".data) ∈
        parse_metadata_comment "<!-- competency: 2.Something | blooms: Analyze -->".data)
    ∧ ((compKey, "2.Something".data).1 = compKey
        ∨ (compKey, "2.Something".data).1 = bloomsKey)
    ∧ (compKey, "2.Something".data).2 ≠ [] :=
  ⟨by decide,
   C4_parse_metadata_keys "<!-- competency: 2.Something | blooms: Analyze -->".data
     (compKey, "2.Something".data) (by decide)⟩

/-! ## Claim C10: fields of the emitted objective records -/



lemma pyFalsy_false_good (d : Dict) (k : Chars)
    (h : pyFalsy (dget d k) = false) : GoodField d k := by
  cases hv : dget d k with
  | none => rw [hv] at h; simp [pyFalsy] at h
  | some v =>
    rw [hv] at h
    refine ⟨v, hv, fun he => ?_⟩
    rw [he] at h
    simp [pyFalsy] at h

lemma derive_ne_nil (c : Chars) : derive_data_flow c ≠ [] := by
  simp only [derive_data_flow]
  split_ifs <;> decide

lemma goodField_dset_other (d : Dict) (k v k' : Chars) (hne : k' ≠ k)
    (h : GoodField d k') : GoodField (dset d k v) k' := by
  obtain ⟨w, hw, hwne⟩ := h
  exact ⟨w, by rw [dget_dset_ne d k v k' hne, hw], hwne⟩

lemma goodField_dset_self (d : Dict) (k v : Chars) (hv : v ≠ []) :
    GoodField (dset d k v) k := ⟨v, dget_dset_self d k v, hv⟩

lemma validateCompetency_good (p : Dict × List Chars) :
    GoodField (validateCompetency p).1 compKey := by
  unfold validateCompetency
  by_cases h : pyFalsy (dget p.1 compKey)
  · rw [if_pos h]
    exact goodField_dset_self _ _ _ (by decide)
  · rw [if_neg h]
    exact pyFalsy_false_good _ _ (Bool.eq_false_iff.mpr h)

lemma validateBlooms_good (p : Dict × List Chars) :
    GoodField (validateBlooms p).1 bloomsKey := by
  unfold validateBlooms
  by_cases h : pyFalsy (dget p.1 bloomsKey)
  · rw [if_pos h]
    exact goodField_dset_self _ _ _ (by decide)
  · rw [if_neg h]
    exact pyFalsy_false_good _ _ (Bool.eq_false_iff.mpr h)

lemma validateDataFlow_good (p : Dict × List Chars) :
    GoodField (validateDataFlow p).1 dfKey := by
  unfold validateDataFlow
  by_cases h : pyFalsy (dget p.1 dfKey)
  · rw [if_pos h]
    exact goodField_dset_self _ _ _ (derive_ne_nil _)
  · rw [if_neg h]
    exact pyFalsy_false_good _ _ (Bool.eq_false_iff.mpr h)

lemma validateBlooms_presGood (p : Dict × List Chars) (k' : Chars)
    (hne : k' ≠ bloomsKey) (h : GoodField p.1 k') :
    GoodField (validateBlooms p).1 k' := by
  unfold validateBlooms
  by_cases hc : pyFalsy (dget p.1 bloomsKey)
  · rw [if_pos hc]
    exact goodField_dset_other _ _ _ _ hne h
  · rw [if_neg hc]
    exact h

lemma validateDataFlow_presGood (p : Dict × List Chars) (k' : Chars)
    (hne : k' ≠ dfKey) (h : GoodField p.1 k') :
    GoodField (validateDataFlow p).1 k' := by
  unfold validateDataFlow
  by_cases hc : pyFalsy (dget p.1 dfKey)
  · rw [if_pos hc]
    exact goodField_dset_other _ _ _ _ hne h
  · rw [if_neg hc]
    exact h

lemma validateCompetency_presSome (p : Dict × List Chars) (k' : Chars)
    (h : (dget p.1 k').isSome = true) :
    (dget (validateCompetency p).1 k').isSome = true := by
  unfold validateCompetency
  by_cases hc : pyFalsy (dget p.1 compKey)
  · rw [if_pos hc]
    exact dget_dset_isSome _ _ _ _ h
  · rw [if_neg hc]
    exact h

lemma validateBlooms_presSome (p : Dict × List Chars) (k' : Chars)
    (h : (dget p.1 k').isSome = true) :
    (dget (validateBlooms p).1 k').isSome = true := by
  unfold validateBlooms
  by_cases hc : pyFalsy (dget p.1 bloomsKey)
  · rw [if_pos hc]
    exact dget_dset_isSome _ _ _ _ h
  · rw [if_neg hc]
    exact h

lemma validateDataFlow_presSome (p : Dict × List Chars) (k' : Chars)
    (h : (dget p.1 k').isSome = true) :
    (dget (validateDataFlow p).1 k').isSome = true := by
  unfold validateDataFlow
  by_cases hc : pyFalsy (dget p.1 dfKey)
  · rw [if_pos hc]
    exact dget_dset_isSome _ _ _ _ h
  · rw [if_neg hc]
    exact h

/-- After validation, the learning-objective key is still present and the
three metadata fields are present and nonempty. -/
lemma validate_good (od : Dict) (hlo : (dget od loKey).isSome = true) :
    GoodObjective (validate_objective_metadata od).1 := by
  unfold validate_objective_metadata
  refine ⟨?_, ?_, ?_, ?_⟩
  · exact validateDataFlow_presSome _ _
      (validateBlooms_presSome _ _ (validateCompetency_presSome _ _ hlo))
  · exact validateDataFlow_presGood _ _ (by decide)
      (validateBlooms_presGood _ _ (by decide) (validateCompetency_good _))
  · exact validateDataFlow_presGood _ _ (by decide) (validateBlooms_good _)
  · exact validateDataFlow_good _

lemma lo_present_base (text : Chars) :
    (dget [(loKey, text)] loKey).isSome = true := by
  simp [dget_cons]

lemma objectiveStep_inv (sec bc : Chars) (acc : List Dict × List ValidationIssue)
    (m : RMatch) (h : ∀ od ∈ acc.1, GoodObjective od) :
    ∀ od ∈ (objectiveStep sec bc acc m).1, GoodObjective od := by
  intro od hod
  simp only [objectiveStep, List.mem_append, List.mem_singleton] at hod
  rcases hod with hod | hod
  · exact h od hod
  · subst hod
    apply validate_good
    cases hm : m.groupStr bc 2 with
    | none => exact lo_present_base _
    | some c =>
      by_cases hce : c.isEmpty
      · simp [hce, lo_present_base]
      · simp only [if_neg hce]
        exact dget_dupdate_isSome _ _ _ (lo_present_base _)

lemma loop_inv (sec bc : Chars) (ms : List RMatch)
    (acc : List Dict × List ValidationIssue)
    (h : ∀ od ∈ acc.1, GoodObjective od) :
    ∀ od ∈ (ms.foldl (objectiveStep sec bc) acc).1, GoodObjective od := by
  induction ms generalizing acc with
  | nil => exact h
  | cons m rest ih => exact ih _ (objectiveStep_inv sec bc acc m h)

lemma parseObjectivesLoop_good (sec bc : Chars) :
    ∀ od ∈ (parseObjectivesLoop sec bc).1, GoodObjective od :=
  loop_inv sec bc _ ([], []) (by simp)

lemma processBlock_good (title body : Chars) (b : BlockData)
    (hb : (processBlock title body).1 = some b) :
    ∀ od ∈ b.objectives, GoodObjective od := by
  unfold processBlock at hb
  cases htm : reMatchAt title_pattern title 0 with
  | none => rw [htm] at hb; simp at hb
  | some tm =>
    rw [htm] at hb
    simp only [] at hb
    split at hb
    · simp at hb
    · simp only [Option.some_inj] at hb
      intro od hod
      apply parseObjectivesLoop_good ((tm.groupStr title 1).getD []) (bodyCleaned body)
      rw [← hb] at hod
      exact hod

lemma admStep_inv (content : Chars) (acc : List BlockData × List ValidationIssue)
    (m : RMatch)
    (h : ∀ b ∈ acc.1, ∀ od ∈ b.objectives, GoodObjective od) :
    ∀ b ∈ (admStep content acc m).1, ∀ od ∈ b.objectives, GoodObjective od := by
  intro b hb
  unfold admStep at hb
  simp only [] at hb
  cases hr : (processBlock (admTitleLine content m) (admBody content m)).1 with
  | none =>
    rw [hr] at hb
    exact h b hb
  | some b' =>
    rw [hr] at hb
    simp only [List.mem_append, List.mem_singleton] at hb
    rcases hb with hb | hb
    · exact h b hb
    · subst hb
      exact processBlock_good _ _ _ hr

lemma extract_fold_inv (content : Chars) (ms : List RMatch)
    (acc : List BlockData × List ValidationIssue)
    (h : ∀ b ∈ acc.1, ∀ od ∈ b.objectives, GoodObjective od) :
    ∀ b ∈ (ms.foldl (admStep content) acc).1, ∀ od ∈ b.objectives, GoodObjective od := by
  induction ms generalizing acc with
  | nil => exact h
  | cons m rest ih => exact ih _ (admStep_inv content acc m h)


/-- Claim C10 as stated is false: on `emptyObjectiveDoc` the extractor
returns a block containing an objective record whose `learning-objective`
value is the empty string, not a non-empty one. -/
theorem C10_counterexample :
    ∃ b ∈ (extract_admonition_blocks emptyObjectiveDoc).1,
      ∃ od ∈ b.objectives, dget od loKey = some [] := by
  decide

/-- Claim C10 (amended): every objective record inside every block returned
by `extract_admonition_blocks` has all four keys present, and the three
metadata fields (`competency`, `blooms-category`, `data-flow`) carry
nonempty values; the `learning-objective` value, while always present, can
be empty. -/
theorem C10_objective_fields (content : Chars) :
    ∀ b ∈ (extract_admonition_blocks content).1, ∀ od ∈ b.objectives,
      (dget od loKey).isSome = true
        ∧ (∃ v, dget od compKey = some v ∧ v ≠ [])
        ∧ (∃ v, dget od bloomsKey = some v ∧ v ≠ [])
        ∧ (∃ v, dget od dfKey = some v ∧ v ≠ []) := by
  intro b hb od hod
  exact extract_fold_inv content _ ([], []) (by simp) b hb od hod

/-- Witness for `C10_objective_fields` at a concrete document. -/
theorem C10_objective_fields_witness :
    ∃ b ∈ (extract_admonition_blocks "```\x7badmonition\x7d [T](r)\n1. Ziel\n```".data).1,
      ∃ od ∈ b.objectives,
        (dget od loKey).isSome = true
          ∧ (∃ v, dget od compKey = some v ∧ v ≠ [])
          ∧ (∃ v, dget od bloomsKey = some v ∧ v ≠ [])
          ∧ (∃ v, dget od dfKey = some v ∧ v ≠ []) := by
  have hmem :
      ∃ b ∈ (extract_admonition_blocks "```\x7badmonition\x7d [T](r)\n1. Ziel\n```".data).1,
        ∃ od ∈ b.objectives, True := by decide
  obtain ⟨b, hb, od, hod, -⟩ := hmem
  exact ⟨b, hb, od, hod,
    C10_objective_fields "```\x7badmonition\x7d [T](r)\n1. Ziel\n```".data b hb od hod⟩

/-! ## Claims C5 and C6: which blocks are emitted -/

lemma isEmpty_false_of_ne_nil {α : Type} (l : List α) (h : l ≠ []) :
    l.isEmpty = false := by
  cases l with
  | nil => exact absurd rfl h
  | cons a t => rfl

/-- The block list of `extract_admonition_blocks` is exactly the
per-match results of `processBlock`, in document order. -/
lemma extract_fold_filterMap (content : Chars) (ms : List RMatch)
    (acc : List BlockData × List ValidationIssue) :
    (ms.foldl (admStep content) acc).1 =
      acc.1 ++ ms.filterMap
        (fun m => (processBlock (admTitleLine content m) (admBody content m)).1) := by
  induction ms generalizing acc with
  | nil => simp
  | cons m rest ih =>
    rw [List.foldl_cons, ih]
    unfold admStep
    simp only []
    cases hr : (processBlock (admTitleLine content m) (admBody content m)).1 with
    | none => simp [List.filterMap_cons, hr]
    | some b => simp [List.filterMap_cons, hr]

lemma extract_blocks_eq (content : Chars) :
    (extract_admonition_blocks content).1 =
      (reFindAll admonition_pattern content).filterMap
        (fun m => (processBlock (admTitleLine content m) (admBody content m)).1) := by
  unfold extract_admonition_blocks
  rw [extract_fold_filterMap]
  simp

/-- Claim C5: an admonition block with a valid title line, at least one
parsed objective, and no chapter marker in its body is still included in
the extractor's output, with its objectives, and with no chapter value
(the `chapter` key is left unset; the warning is only logged). -/
theorem C5_chapterless_block_retained (content : Chars) (m tm : RMatch)
    (hm : m ∈ reFindAll admonition_pattern content)
    (ht : reMatchAt title_pattern (admTitleLine content m) 0 = some tm)
    (hstart : reSearchFrom start_marker_pattern (admBody content m) 0 = none)
    (hobj : (parseObjectivesLoop ((tm.groupStr (admTitleLine content m) 1).getD [])
        (bodyCleaned (admBody content m))).1 ≠ []) :
    ∃ b ∈ (extract_admonition_blocks content).1,
      b.chapter = none
      ∧ b.objectives =
          (parseObjectivesLoop ((tm.groupStr (admTitleLine content m) 1).getD [])
            (bodyCleaned (admBody content m))).1 := by
  have hie := isEmpty_false_of_ne_nil _ hobj
  have hpb : (processBlock (admTitleLine content m) (admBody content m)).1 =
      some { section_title := (tm.groupStr (admTitleLine content m) 1).getD []
             section_reference := (tm.groupStr (admTitleLine content m) 2).getD []
             objectives :=
               (parseObjectivesLoop ((tm.groupStr (admTitleLine content m) 1).getD [])
                 (bodyCleaned (admBody content m))).1
             learning_goal :=
               match (reSearchFrom learning_goal_pattern (admBody content m) 0).map
                   (fun mm => normalize_whitespace
                     ((mm.groupStr (admBody content m) 1).getD [])) with
               | some v => if v.isEmpty then none else some v
               | none => none
             section_note :=
               match tm.groupStr (admTitleLine content m) 4 with
               | some v => if v.isEmpty then none else some v
               | none => none
             chapter := none } := by
    unfold processBlock
    rw [ht]
    simp only [hstart, Option.map_none', hie, Bool.false_eq_true, if_false]
  rw [extract_blocks_eq]
  exact ⟨_, List.mem_filterMap.mpr ⟨m, hm, hpb⟩, rfl, rfl⟩

/-- The objectives component of the loop result does not depend on the
section title (the title only enters the recorded issues). -/
lemma objLoop_fst_irrel (bc : Chars) (ms : List RMatch) (sec sec' : Chars)
    (acc acc' : List Dict × List ValidationIssue) (h : acc.1 = acc'.1) :
    (ms.foldl (objectiveStep sec bc) acc).1 =
      (ms.foldl (objectiveStep sec' bc) acc').1 := by
  induction ms generalizing acc acc' with
  | nil => exact h
  | cons m rest ih =>
    apply ih
    show (objectiveStep sec bc acc m).1 = (objectiveStep sec' bc acc' m).1
    simp only [objectiveStep]
    rw [h]

lemma parseObjectivesLoop_fst_irrel (sec sec' bc : Chars) :
    (parseObjectivesLoop sec bc).1 = (parseObjectivesLoop sec' bc).1 :=
  objLoop_fst_irrel bc _ sec sec' ([], []) ([], []) rfl

/-- Claim C6: the block list returned by `extract_admonition_blocks` is the
list of per-match `processBlock` results, and a block whose body contains
no numbered objective items produces no `processBlock` result, so it is
omitted from the returned block list entirely. -/
theorem C6_blocks_without_objectives_dropped (content : Chars) :
    ((extract_admonition_blocks content).1 =
      (reFindAll admonition_pattern content).filterMap
        (fun m => (processBlock (admTitleLine content m) (admBody content m)).1))
    ∧ ∀ title_line body,
        (parseObjectivesLoop [] (bodyCleaned body)).1 = [] →
        (processBlock title_line body).1 = none := by
  refine ⟨extract_blocks_eq content, ?_⟩
  intro title_line body h
  unfold processBlock
  cases htm : reMatchAt title_pattern title_line 0 with
  | none => rfl
  | some tm =>
    simp only []
    have he : (parseObjectivesLoop ((tm.groupStr title_line 1).getD [])
        (bodyCleaned body)).1 = [] := by
      rw [parseObjectivesLoop_fst_irrel _ [] _]
      exact h
    simp [he]




/-- Witness for `C5_chapterless_block_retained` at a concrete document. -/
theorem C5_chapterless_block_retained_witness :
    ∃ b ∈ (extract_admonition_blocks w5content).1,
      b.chapter = none
      ∧ b.objectives =
          (parseObjectivesLoop ((w5tm.groupStr (admTitleLine w5content w5m) 1).getD [])
            (bodyCleaned (admBody w5content w5m))).1 :=
  C5_chapterless_block_retained w5content w5m w5tm
    (by decide) (by decide) (by decide) (by decide)

/-- Witness for `C6_blocks_without_objectives_dropped`: a block body with
no numbered items yields no block. -/
theorem C6_blocks_without_objectives_dropped_witness :
    (processBlock "[T](r)".data "Nur Prosa, keine Nummern.".data).1 = none :=
  (C6_blocks_without_objectives_dropped []).2
    "[T](r)".data "Nur Prosa, keine Nummern.".data (by decide)

/-! ## Claim C9: unreadable source files -/

/-- Claim C9: when the source file cannot be read, the exception is caught
and `extract_from_lernziele_file` returns an empty block list and an empty
issue list instead of raising; a successful read is processed by
`extract_admonition_blocks` as usual. -/
theorem C9_unreadable_file_empty_results (err : Chars) :
    extract_from_lernziele_file (Except.error err) = ([], [])
    ∧ ∀ content, extract_from_lernziele_file (Except.ok content)
        = extract_admonition_blocks content :=
  ⟨rfl, fun _ => rfl⟩

/-! ## Claim C7: the validation report -/

lemma issueLines_eq (issues : List ValidationIssue) (i : Nat) (acc : Chars) :
    issueLines issues i acc =
      acc ++ ((List.enumFrom i issues).map (fun p => issueEntry p.1 p.2)).flatten := by
  induction issues generalizing i acc with
  | nil => simp [issueLines]
  | cons x rest ih =>
    rw [issueLines, ih, List.enumFrom_cons]
    simp [List.append_assoc]

/-- Claim C7: `generate_validation_report` produces exactly one of two
mutually exclusive bodies — the fixed success message when the issue list
is empty, and otherwise a header, the issue entries enumerated from 1
(section, truncated objective text, comma-joined missing fields), followed
by the fixed remediation hint; the success message appears exactly for the
empty list. -/
theorem C7_report_shape (issues : List ValidationIssue) :
    (issues = [] → generate_validation_report issues = successReport)
    ∧ (issues ≠ [] →
        generate_validation_report issues =
          warnHeader issues.length
            ++ ((List.enumFrom 1 issues).map (fun p => issueEntry p.1 p.2)).flatten
            ++ fixHint)
    ∧ (generate_validation_report issues = successReport ↔ issues = []) := by
  have hnonempty : issues ≠ [] →
      generate_validation_report issues =
        warnHeader issues.length
          ++ ((List.enumFrom 1 issues).map (fun p => issueEntry p.1 p.2)).flatten
          ++ fixHint := by
    intro h
    unfold generate_validation_report
    rw [if_neg (by simpa [List.isEmpty_iff] using h), issueLines_eq,
      List.append_assoc]
  refine ⟨fun h => by simp [generate_validation_report, h], hnonempty, ?_, fun h => ?_⟩
  · intro he
    by_contra hne
    rw [hnonempty hne] at he
    have h1 : (warnHeader issues.length
        ++ (((List.enumFrom 1 issues).map (fun p => issueEntry p.1 p.2)).flatten
          ++ fixHint)).head? = some '⚠' := by
      unfold warnHeader
      rw [List.append_assoc, List.head?_append, List.head?_append]
      rfl
    rw [List.append_assoc] at he
    rw [he] at h1
    have h2 : successReport.head? = some '✅' := rfl
    rw [h2] at h1
    exact absurd (Option.some_inj.mp h1) (by decide)
  · simp [generate_validation_report, h]

/-- Witness for `C7_report_shape` at a concrete one-issue list. -/
theorem C7_report_shape_witness :
    generate_validation_report [⟨"Intro".data, "Ziel".data, [compKey]⟩] =
      warnHeader 1
        ++ ((List.enumFrom 1 [(⟨"Intro".data, "Ziel".data, [compKey]⟩ : ValidationIssue)]).map
              (fun p => issueEntry p.1 p.2)).flatten
        ++ fixHint :=
  (C7_report_shape [⟨"Intro".data, "Ziel".data, [compKey]⟩]).2.1 (by decide)

/-! ## Claim C2: the merge step -/

lemma alookup_cons {β : Type} (q : Chars × β) (ml : List (Chars × β)) (k : Chars) :
    alookup (q :: ml) k = if q.1 = k then some q.2 else alookup ml k := by
  by_cases h : q.1 = k <;> simp [alookup, List.find?_cons, h]

lemma alookup_isSome_eq {β : Type} (ml : List (Chars × β)) (k : Chars) :
    (alookup ml k).isSome = (ml.find? (fun p => p.1 = k)).isSome := by
  unfold alookup
  cases ml.find? (fun p => p.1 = k) <;> rfl

lemma sde_map_self (ml : List (Chars × List Dict)) (k : Chars) (objs : List Dict)
    (h : (alookup ml k).isSome = true) :
    alookup (ml.map (fun p => if p.1 = k then (p.1, p.2 ++ objs) else p)) k
      = some ((alookup ml k).getD [] ++ objs) := by
  induction ml with
  | nil => simp [alookup] at h
  | cons q rest ih =>
    by_cases hq : q.1 = k
    · simp only [List.map_cons, if_pos hq]
      rw [alookup_cons, alookup_cons, if_pos hq, if_pos hq]
      rfl
    · simp only [List.map_cons, if_neg hq]
      rw [alookup_cons, if_neg hq, alookup_cons, if_neg hq]
      apply ih
      rw [alookup_cons, if_neg hq] at h
      exact h

lemma sde_append_self (ml : List (Chars × List Dict)) (k : Chars) (objs : List Dict)
    (h : (alookup ml k).isSome = false) :
    alookup (ml ++ [(k, objs)]) k = some objs := by
  induction ml with
  | nil => simp [alookup_cons]
  | cons q rest ih =>
    rw [alookup_cons] at h
    by_cases hq : q.1 = k
    · rw [if_pos hq] at h
      simp at h
    · rw [if_neg hq] at h
      rw [List.cons_append, alookup_cons, if_neg hq]
      exact ih h

lemma sde_lookup_self (ml : List (Chars × List Dict)) (k : Chars) (objs : List Dict) :
    alookup (setdefaultExtend ml k objs) k
      = some ((alookup ml k).getD [] ++ objs) := by
  unfold setdefaultExtend
  by_cases hf : (ml.find? (fun p => p.1 = k)).isSome
  · rw [if_pos hf]
    exact sde_map_self ml k objs (by rw [alookup_isSome_eq]; exact hf)
  · rw [if_neg hf]
    have h0 : alookup ml k = none := by
      cases hv : alookup ml k with
      | none => rfl
      | some v =>
        exfalso
        apply hf
        rw [← alookup_isSome_eq, hv]
        rfl
    rw [sde_append_self ml k objs (by rw [h0]; rfl), h0]
    rfl

lemma sde_map_ne (ml : List (Chars × List Dict)) (k : Chars) (objs : List Dict)
    (t : Chars) (h : t ≠ k) :
    alookup (ml.map (fun p => if p.1 = k then (p.1, p.2 ++ objs) else p)) t
      = alookup ml t := by
  induction ml with
  | nil => simp
  | cons q rest ih =>
    by_cases hq : q.1 = k
    · have hnt : ¬(q.1 = t) := fun he => h (by rw [← he, hq])
      simp only [List.map_cons, if_pos hq]
      rw [alookup_cons, alookup_cons, ih]
      simp [hnt]
    · simp only [List.map_cons, if_neg hq]
      rw [alookup_cons, alookup_cons, ih]

lemma sde_append_ne (ml : List (Chars × List Dict)) (k : Chars) (objs : List Dict)
    (t : Chars) (h : t ≠ k) :
    alookup (ml ++ [(k, objs)]) t = alookup ml t := by
  induction ml with
  | nil =>
    rw [List.nil_append, alookup_cons, if_neg (Ne.symm h)]
  | cons q rest ih =>
    rw [List.cons_append, alookup_cons, alookup_cons, ih]

lemma sde_lookup_ne (ml : List (Chars × List Dict)) (k : Chars) (objs : List Dict)
    (t : Chars) (h : t ≠ k) :
    alookup (setdefaultExtend ml k objs) t = alookup ml t := by
  unfold setdefaultExtend
  by_cases hf : (ml.find? (fun p => p.1 = k)).isSome
  · rw [if_pos hf]
    exact sde_map_ne ml k objs t h
  · rw [if_neg hf]
    exact sde_append_ne ml k objs t h


lemma extractedFor_cons_skip (t : Chars) (s : BlockData) (rest : List BlockData)
    (h : ¬(s.chapter = some t)) :
    extractedObjectivesFor t (s :: rest) = extractedObjectivesFor t rest := by
  simp [extractedObjectivesFor, List.filter_cons, h]

lemma extractedFor_cons_match (t : Chars) (s : BlockData) (rest : List BlockData)
    (h : s.chapter = some t) :
    extractedObjectivesFor t (s :: rest)
      = s.objectives ++ extractedObjectivesFor t rest := by
  simp [extractedObjectivesFor, List.filter_cons, h]

lemma buildCO_fold_some (sections : List BlockData)
    (acc : List (Chars × List Dict)) (t : Chars) (v : List Dict)
    (htne : t ≠ []) (hv : alookup acc t = some v) :
    alookup (sections.foldl chapterObjStep acc) t
      = some (v ++ extractedObjectivesFor t sections) := by
  induction sections generalizing acc v with
  | nil => simp [extractedObjectivesFor, hv]
  | cons s rest ih =>
    rw [List.foldl_cons]
    cases hc : s.chapter with
    | none =>
      have hstep : chapterObjStep acc s = acc := by simp [chapterObjStep, hc]
      rw [hstep, ih acc v hv, extractedFor_cons_skip t s rest (by simp [hc])]
    | some c =>
      by_cases hce : c.isEmpty
      · have hc0 : c = [] := List.isEmpty_iff.mp hce
        have hstep : chapterObjStep acc s = acc := by simp [chapterObjStep, hc, hce]
        have hne : ¬(s.chapter = some t) := by
          rw [hc, hc0]
          intro he
          exact htne (Option.some_inj.mp he).symm
        rw [hstep, ih acc v hv, extractedFor_cons_skip t s rest hne]
      · have hstep : chapterObjStep acc s = setdefaultExtend acc c s.objectives := by
          simp [chapterObjStep, hc, hce]
        by_cases hct : c = t
        · subst hct
          have hv' : alookup (setdefaultExtend acc c s.objectives) c
              = some (v ++ s.objectives) := by
            rw [sde_lookup_self, hv]
            rfl
          rw [hstep, ih _ _ hv', extractedFor_cons_match c s rest hc]
          simp [List.append_assoc]
        · have hv' : alookup (setdefaultExtend acc c s.objectives) t = some v := by
            rw [sde_lookup_ne _ _ _ _ (fun he : t = c => hct he.symm)]
            exact hv
          have hne : ¬(s.chapter = some t) := by
            rw [hc]
            intro he
            exact hct (Option.some_inj.mp he)
          rw [hstep, ih _ _ hv', extractedFor_cons_skip t s rest hne]

lemma buildCO_fold_none (sections : List BlockData)
    (acc : List (Chars × List Dict)) (t : Chars)
    (htne : t ≠ []) (hn : alookup acc t = none)
    (hex : ∃ s ∈ sections, s.chapter = some t) :
    alookup (sections.foldl chapterObjStep acc) t
      = some (extractedObjectivesFor t sections) := by
  induction sections generalizing acc with
  | nil => simp at hex
  | cons s rest ih =>
    rw [List.foldl_cons]
    by_cases hmatch : s.chapter = some t
    · have hce : t.isEmpty = false := isEmpty_false_of_ne_nil t htne
      have hstep : chapterObjStep acc s = setdefaultExtend acc t s.objectives := by
        simp [chapterObjStep, hmatch, hce]
      have hv' : alookup (setdefaultExtend acc t s.objectives) t
          = some s.objectives := by
        rw [sde_lookup_self, hn]
        rfl
      rw [hstep, buildCO_fold_some rest _ t s.objectives htne hv',
          extractedFor_cons_match t s rest hmatch]
    · have hpres : alookup (chapterObjStep acc s) t = none := by
        cases hc : s.chapter with
        | none => simp [chapterObjStep, hc, hn]
        | some c =>
          by_cases hce : c.isEmpty
          · simp [chapterObjStep, hc, hce, hn]
          · have hne : t ≠ c := fun he => hmatch (by rw [hc, he])
            simp only [chapterObjStep, hc]
            rw [if_neg (by simp [hce]), sde_lookup_ne _ _ _ _ hne]
            exact hn
      have hex' : ∃ s' ∈ rest, s'.chapter = some t := by
        obtain ⟨s0, hs0, hc0⟩ := hex
        rcases List.mem_cons.mp hs0 with he | hin
        · exact absurd (he ▸ hc0) hmatch
        · exact ⟨s0, hin, hc0⟩
      rw [ih _ hpres hex', extractedFor_cons_skip t s rest hmatch]

lemma buildCO_lookup (sections : List BlockData) (t : Chars)
    (htne : t ≠ []) (hex : ∃ s ∈ sections, s.chapter = some t) :
    alookup (buildChapterObjectives sections) t
      = some (extractedObjectivesFor t sections) :=
  buildCO_fold_none sections [] t htne rfl hex

/-- Claim C2: when the metadata store holds a chapter entry whose title
equals the chapter tag of at least one extracted section, merging
overwrites that entry's learning-objectives with exactly the concatenation
of the objective records extracted for this chapter, in extraction
order. -/
theorem C2_merge_replaces_learning_objectives (chapters : List ChapterMeta)
    (sections : List BlockData) (i : Nat) (ch : ChapterMeta) (t : Chars)
    (hch : chapters[i]? = some ch) (ht : ch.title = t) (htne : t ≠ [])
    (hex : ∃ s ∈ sections, s.chapter = some t) :
    ∃ ch', (mergeChapters chapters sections)[i]? = some ch'
      ∧ ch'.learning_objectives = some (extractedObjectivesFor t sections) := by
  subst ht
  have hlook := buildCO_lookup sections ch.title htne hex
  unfold mergeChapters
  simp only []
  rw [List.getElem?_map, hch]
  simp [hlook]



/-- Witness for `C2_merge_replaces_learning_objectives` at concrete data. -/
theorem C2_merge_replaces_learning_objectives_witness :
    ∃ ch', (mergeChapters w2chapters w2sections)[0]? = some ch'
      ∧ ch'.learning_objectives
          = some (extractedObjectivesFor "Intro".data w2sections) :=
  C2_merge_replaces_learning_objectives w2chapters w2sections 0
    ⟨"Intro".data, none, none⟩ "Intro".data (by decide) rfl (by decide) (by decide)

end Lernziele
